import Mathlib

/-!
Verification of the core logic of the Walmart AutoShop bot: the price-matching
candidate selection pipeline (`MyFastScraper.process_product`), the add-to-cart
retry/fallback loop (`WalmartBot.attempt_add_to_cart` / `process_product` /
`add_to_cart_single_product`), the login check (`is_account_logged_in`), the
input loader (`load_input_data`), the outcome store (`save_product_data`) and
the HTML fetcher (`HtmlPageScraper.request_html`).

Python float prices are modelled as exact integer cent amounts: every price
the program handles is a decimal currency value, on which the only operations
performed are order comparison, subtraction and absolute value, and these
coincide with the exact integer operations on the scaled values. Browser and
network effects are modelled as an environment function giving the outcome
observed by each successive attempt.
-/

namespace Walmart

/-- Absolute value written out as Python's `abs` computes it. -/
def intAbs (n : ℤ) : ℤ := if n < 0 then -n else n

/-- A price field of a parsed product record as the scraper sees it: absent
(`product.get("price", 0)` then yields the default `0`), a numeric value (in
cents), or a non-numeric value on which Python `float(...)` raises
`ValueError`/`TypeError`. -/
inductive PriceField
  | missing
  | num (q : ℤ)
  | nonNum
deriving DecidableEq

/-- A product record: `name`, `price`, `url` as produced by the extractor, plus
the `added_to_cart` flag which the cart phase reads via
`eligible_product.get('added_to_cart', False)` (absent key reads as `false`). -/
structure Product where
  name : String
  price : PriceField
  url : String
  added_to_cart : Bool
deriving DecidableEq

/-- Python `float(product.get("price", 0))`: a missing key defaults to `0`, a
numeric value converts exactly, a non-numeric value raises (modelled `none`). -/
def pyFloatPrice : PriceField → Option ℤ
  | .missing => some 0
  | .num q => some q
  | .nonNum => none

/-- The filter step of `MyFastScraper.process_product`: a product is kept when
`float(product.get("price", 0))` succeeds and `min_price <= price <= max_price`;
the `except (ValueError, TypeError)` arm skips the product. -/
def keepsProduct (minp maxp : ℤ) (p : Product) : Bool :=
  match pyFloatPrice p.price with
  | some q => decide (minp ≤ q) && decide (q ≤ maxp)
  | none => false

/-- The sort key `abs(float(x.get("price", 0)) - min_price)` used by the
`sorted(...)` call. Products reaching the sort passed the filter, so their
price field is `missing` (read as `0`) or numeric; `getD 0` covers both. -/
def sortKey (minp : ℤ) (p : Product) : ℤ :=
  intAbs ((pyFloatPrice p.price).getD 0 - minp)

/-- Comparison by sort key; Python's `sorted` is a stable sort by key, modelled
by Mathlib's stable `List.insertionSort` under this total preorder. -/
def keyLe (minp : ℤ) (p q : Product) : Prop :=
  sortKey minp p ≤ sortKey minp q

instance (minp : ℤ) : DecidableRel (keyLe minp) :=
  fun p q => inferInstanceAs (Decidable (sortKey minp p ≤ sortKey minp q))

instance (minp : ℤ) : IsTotal Product (keyLe minp) :=
  ⟨fun p q => le_total (sortKey minp p) (sortKey minp q)⟩

instance (minp : ℤ) : IsTrans Product (keyLe minp) :=
  ⟨fun _ _ _ => le_trans⟩

/-- The candidate-selection core of `MyFastScraper.process_product` (the Price
Matcher `select` contract): filter to the price band, stably sort by distance
from `min_price`, truncate to the first 2; the empty-filter branch returns the
empty shortlist. -/
def select_code (parsed : List Product) (minp maxp : ℤ) : List Product :=
  let filtered := parsed.filter (keepsProduct minp maxp)
  if filtered.isEmpty then []
  else (filtered.insertionSort (keyLe minp)).take 2

/-- Reference definition transcribed from the spec's words for C1: keep exactly
the candidates whose NUMERIC price lies in the band — candidates with a
non-numeric or MISSING price are dropped — stably sort by ascending distance
from `min_price`, truncate to 2. -/
def select_spec (parsed : List Product) (minp maxp : ℤ) : List Product :=
  let kept := parsed.filter fun p =>
    match p.price with
    | .num q => decide (minp ≤ q) && decide (q ≤ maxp)
    | _ => false
  (kept.insertionSort (keyLe minp)).take 2

/-- Amended reference for C1: as `select_spec`, except a candidate with a
MISSING price is treated as having price `0` (the `.get("price", 0)` default):
it is kept iff `min_price ≤ 0 ≤ max_price` and ranked at distance
`|0 - min_price|`; only non-numeric prices are dropped. -/
def select_spec_amended (parsed : List Product) (minp maxp : ℤ) : List Product :=
  let kept := parsed.filter fun p =>
    match p.price with
    | .num q => decide (minp ≤ q) && decide (q ≤ maxp)
    | .missing => decide (minp ≤ (0 : ℤ)) && decide ((0 : ℤ) ≤ maxp)
    | .nonNum => false
  (kept.insertionSort (keyLe minp)).take 2

/-- Effective price of a kept product: its numeric price, or `0` when the
price field is missing. -/
def effPrice (p : Product) : ℤ :=
  (pyFloatPrice p.price).getD 0

/-- A candidate whose price field is missing entirely. -/
def noPriceProduct : Product :=
  ⟨"widget", .missing, "https://example.com/widget", false⟩

/-- The spec's worked example, in cents: prices 19.99, 25.00, 15.00 with band
[15.00, 22.00]. -/
def exProducts : List Product :=
  [⟨"a", .num 1999, "https://example.com/a", false⟩,
   ⟨"b", .num 2500, "https://example.com/b", false⟩,
   ⟨"c", .num 1500, "https://example.com/c", false⟩]

/-- The 15.00 candidate of the spec's worked example. -/
def exPick : Product := ⟨"c", .num 1500, "https://example.com/c", false⟩

/-- The value stored into `item_info["eligible_products"]` by the scrape
phase: because of the trailing comma in `item_info["eligible_products"] =
sorted_products[:2],` (and in the empty branch `= [],`) the stored value is a
one-element TUPLE holding the shortlist; `bare` is the hypothetical bare-list
value the claim rules out on the success path. -/
inductive EPVal
  | tup (l : List Product)
  | bare (l : List Product)
deriving DecidableEq

/-- MyFastScraper.process_product, success path (no exception): filter to the
band, stably sort by distance from `min_price`, take 2, and store the result
wrapped in a one-element tuple; the empty-filter branch stores `([],)`. -/
def scraper_process_product (minp maxp : ℤ) (parsed : List Product) : EPVal :=
  let filtered := parsed.filter (keepsProduct minp maxp)
  if filtered.isEmpty then .tup []
  else .tup ((filtered.insertionSort (keyLe minp)).take 2)

/-- Possible results of the Python subscript `value[0]`: the shortlist list
(tuple case), a single product record (first element of a bare non-empty
list), or an IndexError (bare empty list). -/
inductive EPRead
  | list (l : List Product)
  | record (p : Product)
  | indexError
deriving DecidableEq

/-- The cart phase's read `item_info['eligible_products'][0]`
(WalmartBot.process_product line 381). -/
def epSubscript0 : EPVal → EPRead
  | .tup l => .list l
  | .bare [] => .indexError
  | .bare (p :: _) => .record p

/-- The outcome a browser session observes for one attempt of
`WalmartBot.attempt_add_to_cart`, one constructor per control path of the
loop body: an exception anywhere in the session (`except` arm), the
page-load wait timing out, the captcha/blocked branch
(`captcha_detected` true), the not-logged-in branch, an exception while
clicking Add to cart, a confirmed add (returns True), a click whose
confirmation check fails, the missing-button branch finding the item already
in cart (returns True), and the missing-button branch finding nothing. -/
inductive PageOutcome
  | sessionError
  | loadTimeout
  | captcha
  | notLoggedIn
  | clickError
  | confirmedAdd
  | notConfirmedAdd
  | alreadyInCart
  | buttonMissing
deriving DecidableEq

/-- The two outcomes on which `attempt_add_to_cart` returns True. -/
def PageOutcome.isSuccess : PageOutcome → Bool
  | .confirmedAdd => true
  | .alreadyInCart => true
  | _ => false

/-- One attempt on record: whether the session was opened with the proxied
profile (`proxy_needed` at session start) and what the session observed. -/
structure AttemptRec where
  proxied : Bool
  outcome : PageOutcome
deriving DecidableEq

/-- The `while retries < self.retry_attempts` loop of
`WalmartBot.attempt_add_to_cart`, with `fuel = retry_attempts - retries`.
`env t` is the outcome observed by the t-th browser session opened for the
item. Each iteration opens exactly one session (one record); every failure
path increments `retries` by exactly one (either the inline `retries += 1 ...
continue` of the timeout/captcha arms or the shared `retries += 1` at the
loop bottom); the captcha arm additionally sets `proxy_needed = True`, used
by all later iterations of THIS call; a success outcome returns True
immediately. Returns (result, next session index, session records). -/
def attemptGo (env : ℕ → PageOutcome) : ℕ → ℕ → Bool → Bool × ℕ × List AttemptRec
  | 0, t, _ => (false, t, [])
  | fuel + 1, t, proxy =>
    let o := env t
    if o.isSuccess then (true, t + 1, [⟨proxy, o⟩])
    else
      let proxy' := if o = .captcha then true else proxy
      let r := attemptGo env fuel (t + 1) proxy'
      (r.1, r.2.1, ⟨proxy, o⟩ :: r.2.2)

/-- WalmartBot.attempt_add_to_cart: `retries = 0`, `proxy_needed = False`,
then the retry loop. -/
def attempt_add_to_cart (env : ℕ → PageOutcome) (retry_attempts : ℕ) (t : ℕ) :
    Bool × ℕ × List AttemptRec :=
  attemptGo env retry_attempts t false

/-- The candidate loop of WalmartBot.process_product: candidates are visited
in shortlist order with their enumeration index `i`; a candidate whose
`added_to_cart` flag is set is skipped (`continue`, which also skips the
cutoff check); otherwise `attempt_add_to_cart` runs — a fresh call, so its
`proxy_needed` starts at False; on success the loop returns the winning
index; after a failure the loop breaks when `i >= 1 and retry_attempts >= 2`;
otherwise it advances to the next candidate. Returns (winner index if any,
attempt records tagged with their candidate index). -/
def processGo (env : ℕ → PageOutcome) (ra : ℕ) :
    List Product → ℕ → ℕ → Option ℕ × List (ℕ × AttemptRec)
  | [], _, _ => (none, [])
  | p :: rest, i, t =>
    if p.added_to_cart then processGo env ra rest (i + 1) t
    else
      let r := attempt_add_to_cart env ra t
      let tagged := r.2.2.map fun a => (i, a)
      if r.1 then (some i, tagged)
      else if 1 ≤ i ∧ 2 ≤ ra then (none, tagged)
      else
        let rest' := processGo env ra rest (i + 1) r.2.1
        (rest'.1, tagged ++ rest'.2)

/-- The attempt records of a whole item run, in chronological order, each
tagged with the index of the candidate it belongs to. -/
def itemRecs (env : ℕ → PageOutcome) (ra : ℕ) (cands : List Product) :
    List (ℕ × AttemptRec) :=
  (processGo env ra cands 0 0).2

/-- Result of one item's cart phase: `ok winner recs`, or `crash` for the
unreachable type-confusion path (a bare non-empty list under
`eligible_products`, where `[0].copy()` yields a dict and iterating it raises
AttributeError). -/
inductive ItemRun
  | ok (winner : Option ℕ) (recs : List (ℕ × AttemptRec))
  | crash
deriving DecidableEq

/-- WalmartBot.process_product: the guard `not item_info.get(
'eligible_products') or not item_info['eligible_products'][0]` returns None
(no attempt) when the field is absent, when the stored one-element tuple
holds an empty shortlist, or when the value is an empty bare list; a stored
tuple with a non-empty shortlist enters the candidate loop. -/
def bot_process_product (env : ℕ → PageOutcome) (ra : ℕ) (ep : Option EPVal) :
    ItemRun :=
  match ep with
  | none => .ok none []
  | some (.tup l) =>
    if l.isEmpty then .ok none []
    else
      let r := processGo env ra l 0 0
      .ok r.1 r.2
  | some (.bare []) => .ok none []
  | some (.bare (_ :: _)) => .crash

/-- The two durable outcome stores. -/
inductive StoreKind
  | success
  | failure
deriving DecidableEq

/-- WalmartBot.add_to_cart_single_product: a non-None result from
process_product is saved to the success store, a None result to the failure
store; on the (unreachable) crash the exception propagates before any save. -/
def add_to_cart_single_product (env : ℕ → PageOutcome) (ra : ℕ)
    (ep : Option EPVal) : Option StoreKind × List (ℕ × AttemptRec) :=
  match bot_process_product env ra ep with
  | .ok (some _) recs => (some .success, recs)
  | .ok none recs => (some .failure, recs)
  | .crash => (none, [])

/-- An environment in which every session fails with the not-logged-in
branch. -/
def envFail : ℕ → PageOutcome := fun _ => .notLoggedIn

/-- An environment whose first session observes the captcha/blocked signal
and whose later sessions observe not-logged-in failures. -/
def envBlockFirst : ℕ → PageOutcome :=
  fun t => if t = 0 then .captcha else .notLoggedIn

/-- A plain in-band candidate, not yet added to cart. -/
def plainCand : Product :=
  ⟨"cand", .num 100, "https://example.com/cand", false⟩

/-- Claim C2 as stated: in an item's chronological attempt records, every
attempt after a blocked one runs proxied — across candidate boundaries too. -/
def proxyPersistsAcrossItem (env : ℕ → PageOutcome) (ra : ℕ)
    (cands : List Product) : Prop :=
  ∀ (i j : ℕ) (a b : ℕ × AttemptRec), i < j →
    (itemRecs env ra cands)[i]? = some a →
    (itemRecs env ra cands)[j]? = some b →
    a.2.outcome = .captcha → b.2.proxied = true

/-- The page signals inspected by the login/captcha checks: visibility of the
two authenticated-user markers ('Hi, ' in the Account link / header div), the
two anonymous sign-in markers, the two "Robot or human?" headers, and the
page body text read by `browser.get_text('body')`. -/
structure PageState where
  hiAccountTag : Bool
  hiHeaderDiv : Bool
  signInAccountTag : Bool
  signInHeaderDiv : Bool
  captchaH1 : Bool
  captchaH2 : Bool
  body : String
deriving DecidableEq

/-- Python substring test `needle in hay`. -/
def strContains (hay needle : String) : Bool :=
  (hay.splitOn needle).length != 1

/-- WalmartBot.is_request_blocked: a visible "Robot or human?" h1 or h2 is a
captcha; otherwise a non-empty body shorter than 500 characters containing
"Forbidden" is a forbidden-access block; otherwise not blocked. -/
def is_request_blocked (p : PageState) : Bool :=
  if p.captchaH1 || p.captchaH2 then true
  else if p.body ≠ "" ∧ p.body.length < 500 ∧ strContains p.body "Forbidden" then true
  else false

/-- WalmartBot.is_account_logged_in, returning the Python pair
(is_logged_in, is_captcha_detected) with None modelled as `none`: the
Hi-marker wins, then the Sign-In marker, then the blocked check, and the
ambiguous remainder returns (True, None). -/
def is_account_logged_in (p : PageState) : Option Bool × Option Bool :=
  if p.hiAccountTag || p.hiHeaderDiv then (some true, some false)
  else if p.signInAccountTag || p.signInHeaderDiv then (some false, some false)
  else if is_request_blocked p then (some false, some true)
  else (some true, none)

/-- A page showing only the robot-challenge header. -/
def blockedPage : PageState := ⟨false, false, false, false, true, false, ""⟩

/-- One CSV row after DictReader and `.strip()`: the item name and the two
price fields, `none` where Python `float(...)` raises ValueError (malformed
field), `some` cents otherwise. Extra columns are carried through verbatim
and play no role in the claims. -/
structure Row where
  itemName : String
  minCost : Option ℤ
  maxCost : Option ℤ
deriving DecidableEq

/-- A loaded input item (`product_name`, normalized price band). -/
structure InputItem where
  product_name : String
  min_price : ℤ
  max_price : ℤ
deriving DecidableEq

/-- Per-row processing of load_input_data: an empty item name skips the row;
a malformed price is logged and substituted with 0 (the row is kept); when
min_price > max_price the two values are swapped (logged). -/
def loadRow (r : Row) : Option InputItem :=
  if r.itemName = "" then none
  else
    let minp := r.minCost.getD 0
    let maxp := r.maxCost.getD 0
    if minp > maxp then some ⟨r.itemName, maxp, minp⟩
    else some ⟨r.itemName, minp, maxp⟩

/-- load_input_data's row loop (after the fatal header validation): each row
is normalized by `loadRow`, skipped rows are dropped. -/
def load_input_data (rows : List Row) : List InputItem :=
  rows.filterMap loadRow

/-- A row whose min price field is malformed and whose max is -1.00. -/
def badRow : Row := ⟨"pen", none, some (-100)⟩

/-- One key assignment of Python `dict.update`: replace the value in place if
the key is present (keys are unique in the stores), else append at the end. -/
def dictInsert {V : Type} : List (String × V) → String → V → List (String × V)
  | [], k, v => [(k, v)]
  | kv :: d, k, v => if kv.1 = k then (k, v) :: d else kv :: dictInsert d k v

/-- Python `data.update(product)`: assign each key of `product` in order. -/
def dictUpdate {V : Type} (d : List (String × V))
    (product : List (String × V)) : List (String × V) :=
  product.foldl (fun acc kv => dictInsert acc kv.1 kv.2) d

/-- Reading a key of the store (first matching entry). -/
def dictLookup {V : Type} (d : List (String × V)) (k : String) : Option V :=
  (d.find? fun kv => kv.1 == k).map Prod.snd

/-- The on-disk state of an outcome-store file: absent, present but not
valid JSON, or a valid JSON object. -/
inductive StoreFile (V : Type)
  | missing
  | malformed
  | valid (entries : List (String × V))

/-- The load step of WalmartBot.save_product_data: a missing file, and a
json.JSONDecodeError on an existing one, both yield the empty dict. -/
def loadStore {V : Type} : StoreFile V → List (String × V)
  | .missing => []
  | .malformed => []
  | .valid d => d

/-- WalmartBot.save_product_data: load the existing store, `data.update`
with the new record(s), write the merged dict back. -/
def save_product_data {V : Type} (file : StoreFile V)
    (product : List (String × V)) : List (String × V) :=
  dictUpdate (loadStore file) product

/-- One fetch attempt's observable outcome at the `session.get` call: an
aiohttp.ClientError, any other exception, or an HTTP response with a status
code and a body. -/
inductive FetchOutcome
  | transportError
  | unexpectedError
  | response (status : ℕ) (body : String)
deriving DecidableEq

/-- The code's plausibility test: `response.status == 200 and
len(html_content) > 2000`. -/
def fetchOk : FetchOutcome → Bool
  | .response s b => decide (s = 200) && decide (2000 < b.length)
  | _ => false

/-- The `while retries < 3` loop of HtmlPageScraper.request_html: `retries`
starts at 1 and each non-returning iteration increments it, so exactly two
attempts run; `fuel = 3 - retries`; `env t` is the t-th attempt's outcome. A
status-200 response longer than 2000 characters returns the body; every
other path (bad response, ClientError, unexpected exception) retries;
falling off the loop returns Python's implicit None. -/
def requestLoop (env : ℕ → FetchOutcome) : ℕ → ℕ → Option String
  | 0, _ => none
  | fuel + 1, t =>
    match env t with
    | .response status body =>
      if status = 200 ∧ 2000 < body.length then some body
      else requestLoop env fuel (t + 1)
    | _ => requestLoop env fuel (t + 1)

/-- HtmlPageScraper.request_html over the attempt environment. -/
def request_html (env : ℕ → FetchOutcome) : Option String :=
  requestLoop env 2 0

/-- An environment in which every fetch attempt raises a ClientError. -/
def envFetchFail : ℕ → FetchOutcome := fun _ => .transportError

theorem keepsProduct_eq_amended (minp maxp : ℤ) (p : Product) :
    keepsProduct minp maxp p =
      match p.price with
      | .num q => decide (minp ≤ q) && decide (q ≤ maxp)
      | .missing => decide (minp ≤ (0 : ℤ)) && decide ((0 : ℤ) ≤ maxp)
      | .nonNum => false := by
  obtain ⟨n, pr, u, f⟩ := p
  cases pr <;> rfl

theorem select_code_eq_take_sort (parsed : List Product) (minp maxp : ℤ) :
    select_code parsed minp maxp =
      ((parsed.filter (keepsProduct minp maxp)).insertionSort (keyLe minp)).take 2 := by
  unfold select_code
  by_cases h : (parsed.filter (keepsProduct minp maxp)).isEmpty
  · rw [List.isEmpty_iff] at h
    simp [h]
  · simp [h]

theorem keepsProduct_effPrice (minp maxp : ℤ) (p : Product)
    (h : keepsProduct minp maxp p = true) :
    minp ≤ effPrice p ∧ effPrice p ≤ maxp := by
  unfold keepsProduct at h
  unfold effPrice
  cases hp : pyFloatPrice p.price with
  | none => rw [hp] at h; exact absurd h (by simp)
  | some q =>
    rw [hp] at h
    simp only [Bool.and_eq_true, decide_eq_true_eq] at h
    simpa [hp] using h

theorem mem_select_code (parsed : List Product) (minp maxp : ℤ) (p : Product)
    (h : p ∈ select_code parsed minp maxp) :
    p ∈ parsed ∧ keepsProduct minp maxp p = true := by
  rw [select_code_eq_take_sort] at h
  have h1 := (List.take_sublist 2 _).subset h
  rw [List.mem_insertionSort] at h1
  exact List.mem_filter.mp h1

/-- C1 (amended): `select` (the core of `MyFastScraper.process_product`) equals
the amended reference — keep candidates whose effective price (missing price
read as `0`) lies in the band, dropping only non-numeric prices; stably sort by
ascending `|price − min_price|`; truncate to the first 2 — and consequently the
output has length at most 2, every output element's effective price lies in the
band, and the output is sorted by ascending distance from `min_price`. -/
theorem C1_price_matcher (parsed : List Product) (minp maxp : ℤ) :
    select_code parsed minp maxp = select_spec_amended parsed minp maxp ∧
    (select_code parsed minp maxp).length ≤ 2 ∧
    (∀ p, p ∈ select_code parsed minp maxp → minp ≤ effPrice p ∧ effPrice p ≤ maxp) ∧
    (select_code parsed minp maxp).Sorted (keyLe minp) := by
  refine ⟨?_, ?_, ?_, ?_⟩
  · rw [select_code_eq_take_sort]
    unfold select_spec_amended
    rw [List.filter_congr (fun a _ => keepsProduct_eq_amended minp maxp a)]
  · rw [select_code_eq_take_sort]
    exact List.length_take_le 2 _
  · exact fun p hp => keepsProduct_effPrice minp maxp p (mem_select_code parsed minp maxp p hp).2
  · rw [select_code_eq_take_sort]
    exact List.Pairwise.sublist (List.take_sublist 2 _)
      (List.sorted_insertionSort (keyLe minp) _)

/-- C1 counterexample: on a candidate with a MISSING price and the band
[0, 10], the code keeps the candidate (missing price reads as `0`, which lies
in the band) while the claim's reference definition drops it, so the two
functions differ. -/
theorem C1_price_matcher_counterexample :
    select_code [noPriceProduct] 0 10 ≠ select_spec [noPriceProduct] 0 10 := by
  decide

theorem C1_price_matcher_witness :
    exPick ∈ select_code exProducts 1500 2200 ∧
    1500 ≤ effPrice exPick ∧ effPrice exPick ≤ 2200 :=
  ⟨by decide, (C1_price_matcher exProducts 1500 2200).2.2.1 exPick (by decide)⟩

theorem scraper_process_product_eq (minp maxp : ℤ) (parsed : List Product) :
    scraper_process_product minp maxp parsed = .tup (select_code parsed minp maxp) := by
  unfold scraper_process_product select_code
  by_cases h : (parsed.filter (keepsProduct minp maxp)).isEmpty <;> simp [h]

/-- C3: on the success path the scrape phase always stores a one-element tuple
whose sole element is the shortlist (of length at most 2, possibly empty) —
never the bare shortlist — and the cart phase's subscript `[0]` recovers
exactly that shortlist. -/
theorem C3_eligible_products_is_tuple (minp maxp : ℤ) (parsed : List Product) :
    scraper_process_product minp maxp parsed = .tup (select_code parsed minp maxp) ∧
    (select_code parsed minp maxp).length ≤ 2 ∧
    epSubscript0 (scraper_process_product minp maxp parsed) =
      .list (select_code parsed minp maxp) := by
  refine ⟨scraper_process_product_eq minp maxp parsed, ?_, ?_⟩
  · rw [select_code_eq_take_sort]
    exact List.length_take_le 2 _
  · rw [scraper_process_product_eq]
    rfl

theorem attemptGo_length_le (env : ℕ → PageOutcome) (fuel : ℕ) :
    ∀ (t : ℕ) (proxy : Bool), ((attemptGo env fuel t proxy).2.2).length ≤ fuel := by
  induction fuel with
  | zero => intro t proxy; simp [attemptGo]
  | succ n ih =>
    intro t proxy
    by_cases h : (env t).isSuccess
    · simp [attemptGo, h]
    · simp only [attemptGo, h, Bool.false_eq_true, if_false, List.length_cons]
      exact Nat.succ_le_succ (ih (t + 1) _)

theorem attemptGo_length_of_false (env : ℕ → PageOutcome) (fuel : ℕ) :
    ∀ (t : ℕ) (proxy : Bool), (attemptGo env fuel t proxy).1 = false →
      ((attemptGo env fuel t proxy).2.2).length = fuel := by
  induction fuel with
  | zero => intro t proxy _; simp [attemptGo]
  | succ n ih =>
    intro t proxy hf
    by_cases h : (env t).isSuccess
    · simp [attemptGo, h] at hf
    · simp only [attemptGo, h, Bool.false_eq_true, if_false, List.length_cons] at hf ⊢
      exact congrArg Nat.succ (ih (t + 1) _ hf)

theorem attemptGo_length_one (env : ℕ → PageOutcome) (t : ℕ) (proxy : Bool) :
    ((attemptGo env 1 t proxy).2.2).length = 1 := by
  by_cases h : (env t).isSuccess <;> simp [attemptGo, h]

/-- C10: the per-candidate attempt loop opens at most `retry_attempts`
browser sessions (one per loop iteration, each failure path advancing the
retry counter by one); when every attempt fails it returns False after
exactly `retry_attempts` sessions; with the default `retry_attempts = 1` each
candidate gets exactly one session. -/
theorem C10_retry_budget (env : ℕ → PageOutcome) (ra t : ℕ) :
    ((attempt_add_to_cart env ra t).2.2).length ≤ ra ∧
    ((attempt_add_to_cart env ra t).1 = false →
      ((attempt_add_to_cart env ra t).2.2).length = ra) ∧
    (ra = 1 → ((attempt_add_to_cart env ra t).2.2).length = 1) := by
  refine ⟨attemptGo_length_le env ra t false,
    attemptGo_length_of_false env ra t false, ?_⟩
  intro h1
  subst h1
  exact attemptGo_length_one env t false

theorem C10_retry_budget_witness :
    ((attempt_add_to_cart envFail 1 0).2.2).length = 1 :=
  (C10_retry_budget envFail 1 0).2.2 rfl

theorem attemptGo_all_proxied (env : ℕ → PageOutcome) (fuel : ℕ) :
    ∀ t, ∀ r ∈ (attemptGo env fuel t true).2.2, r.proxied = true := by
  induction fuel with
  | zero => intro t r hr; simp [attemptGo] at hr
  | succ n ih =>
    intro t r hr
    by_cases h : (env t).isSuccess
    · simp only [attemptGo, h, if_true, List.mem_singleton] at hr
      rw [hr]
    · simp only [attemptGo, h, Bool.false_eq_true, if_false, ite_self,
        List.mem_cons] at hr
      rcases hr with hr | hr
      · rw [hr]
      · exact ih (t + 1) r hr

theorem attemptGo_captcha_pairwise (env : ℕ → PageOutcome) (fuel : ℕ) :
    ∀ (t : ℕ) (proxy : Bool), ((attemptGo env fuel t proxy).2.2).Pairwise
      (fun a b => a.outcome = .captcha → b.proxied = true) := by
  induction fuel with
  | zero => intro t proxy; simp [attemptGo]
  | succ n ih =>
    intro t proxy
    by_cases h : (env t).isSuccess
    · simp [attemptGo, h]
    · simp only [attemptGo, h, Bool.false_eq_true, if_false]
      refine List.Pairwise.cons ?_ (ih (t + 1) _)
      intro b hb hcap
      simp only at hcap
      have hb1 : b ∈ (attemptGo env n (t + 1) true).2.2 := by
        simpa [hcap] using hb
      exact attemptGo_all_proxied env n (t + 1) b hb1

theorem attemptGo_head_proxy (env : ℕ → PageOutcome) (fuel t : ℕ)
    (proxy : Bool) (r : AttemptRec) (rest : List AttemptRec)
    (h : (attemptGo env fuel t proxy).2.2 = r :: rest) : r.proxied = proxy := by
  cases fuel with
  | zero => simp [attemptGo] at h
  | succ n =>
    by_cases hs : (env t).isSuccess
    · simp only [attemptGo, hs, if_true, List.cons.injEq] at h
      rw [← h.1]
    · simp only [attemptGo, hs, Bool.false_eq_true, if_false,
        List.cons.injEq] at h
      rw [← h.1]

/-- C2 (amended): proxy escalation is per candidate, not per item — within a
single `attempt_add_to_cart` call, once an attempt observes the captcha
signal every later attempt of that SAME candidate opens its session with the
proxied profile; and the flag starts out False on each call, so it does not
carry over from one candidate to the next. -/
theorem C2_proxy_escalation_per_candidate (env : ℕ → PageOutcome) (ra t : ℕ) :
    ((attempt_add_to_cart env ra t).2.2).Pairwise
      (fun a b => a.outcome = .captcha → b.proxied = true) ∧
    (∀ r rest, (attempt_add_to_cart env ra t).2.2 = r :: rest →
      r.proxied = false) :=
  ⟨attemptGo_captcha_pairwise env ra t false,
   fun r rest h => attemptGo_head_proxy env ra t false r rest h⟩

theorem C2_proxy_escalation_witness :
    (⟨false, .captcha⟩ : AttemptRec).proxied = false :=
  (C2_proxy_escalation_per_candidate envBlockFirst 2 0).2
    ⟨false, .captcha⟩ [⟨true, .notLoggedIn⟩] (by decide)

/-- C2 counterexample: with `retry_attempts = 2` and two candidates, the
first candidate's first attempt is blocked (so its second attempt runs
proxied), its budget is exhausted, and the second candidate's first attempt
then runs WITHOUT the proxy: `proxy_needed` is a local of
`attempt_add_to_cart` and resets between candidates. -/
theorem C2_proxy_escalation_counterexample :
    ¬ proxyPersistsAcrossItem envBlockFirst 2 [plainCand, plainCand] := by
  intro h
  have h2 := h 0 2 (0, ⟨false, .captcha⟩) (1, ⟨false, .notLoggedIn⟩)
    (by decide) (by decide) (by decide) rfl
  exact absurd h2 (by decide)

/-- C4: an item whose EligibleSet is empty (the scrape phase stored the
one-element tuple holding the empty shortlist) is recorded as Failure —
written to the failure store — without opening any browser session and
without recording any attempt. -/
theorem C4_empty_eligible_set (env : ℕ → PageOutcome) (ra : ℕ) :
    bot_process_product env ra (some (.tup [])) = .ok none [] ∧
    add_to_cart_single_product env ra (some (.tup [])) = (some .failure, []) :=
  ⟨rfl, rfl⟩

theorem processGo_tag_ge (env : ℕ → PageOutcome) (ra : ℕ) :
    ∀ (cands : List Product) (i t : ℕ) (r : ℕ × AttemptRec),
      r ∈ (processGo env ra cands i t).2 → i ≤ r.1 := by
  intro cands
  induction cands with
  | nil => intro i t r hr; simp [processGo] at hr
  | cons p rest ih =>
    intro i t r hr
    by_cases hadd : p.added_to_cart
    · simp only [processGo, hadd, if_true] at hr
      exact le_trans (Nat.le_succ i) (ih (i + 1) t r hr)
    · simp only [processGo, hadd, Bool.false_eq_true, if_false] at hr
      split_ifs at hr with hs hbreak
      · obtain ⟨a, _, ha⟩ := List.mem_map.mp hr
        rw [← ha]
      · obtain ⟨a, _, ha⟩ := List.mem_map.mp hr
        rw [← ha]
      · rcases List.mem_append.mp hr with hr | hr
        · obtain ⟨a, _, ha⟩ := List.mem_map.mp hr
          rw [← ha]
        · exact le_trans (Nat.le_succ i) (ih (i + 1) _ r hr)

theorem pairwise_tag_const (i : ℕ) (l : List AttemptRec) :
    (l.map fun a => (i, a)).Pairwise
      (fun a b : ℕ × AttemptRec => a.1 ≤ b.1) := by
  rw [List.pairwise_map]
  induction l with
  | nil => exact List.Pairwise.nil
  | cons a l ih => exact List.Pairwise.cons (fun b _ => le_refl i) ih

theorem processGo_tags_sorted (env : ℕ → PageOutcome) (ra : ℕ) :
    ∀ (cands : List Product) (i t : ℕ),
      ((processGo env ra cands i t).2).Pairwise
        (fun a b : ℕ × AttemptRec => a.1 ≤ b.1) := by
  intro cands
  induction cands with
  | nil => intro i t; simp [processGo]
  | cons p rest ih =>
    intro i t
    by_cases hadd : p.added_to_cart
    · simp only [processGo, hadd, if_true]
      exact ih (i + 1) t
    · simp only [processGo, hadd, Bool.false_eq_true, if_false]
      split_ifs with hs hbreak
      · exact pairwise_tag_const i _
      · exact pairwise_tag_const i _
      · rw [List.pairwise_append]
        refine ⟨pairwise_tag_const i _, ih (i + 1) _, ?_⟩
        intro a ha b hb
        obtain ⟨a0, _, ha0⟩ := List.mem_map.mp ha
        have hbge := processGo_tag_ge env ra rest (i + 1) _ b hb
        rw [← ha0]
        exact le_trans (Nat.le_succ i) hbge

theorem processGo_cutoff (env : ℕ → PageOutcome) (ra : ℕ) (h2 : 2 ≤ ra) :
    ∀ (cands : List Product) (i t : ℕ),
      (∃ r ∈ (processGo env ra cands i t).2, r.1 = 1) →
      (processGo env ra cands i t).1 ≠ some 1 →
      (processGo env ra cands i t).1 = none ∧
        ∀ r ∈ (processGo env ra cands i t).2, r.1 ≤ 1 := by
  intro cands
  induction cands with
  | nil => intro i t hex hne; simp [processGo] at hex
  | cons p rest ih =>
    intro i t hex hne
    by_cases hadd : p.added_to_cart
    · simp only [processGo, hadd, if_true] at hex hne ⊢
      exact ih (i + 1) t hex hne
    · simp only [processGo, hadd, Bool.false_eq_true, if_false] at hex hne ⊢
      split_ifs at hex hne ⊢ with hs hbreak
      · obtain ⟨r, hr, hr1⟩ := hex
        obtain ⟨a, _, ha⟩ := List.mem_map.mp hr
        rw [← ha] at hr1
        simp only at hr1
        exact absurd (by simp [hr1]) hne
      · refine ⟨rfl, ?_⟩
        obtain ⟨r, hr, hr1⟩ := hex
        obtain ⟨a, _, ha⟩ := List.mem_map.mp hr
        rw [← ha] at hr1
        simp only at hr1
        intro r' hr'
        obtain ⟨a', _, ha'⟩ := List.mem_map.mp hr'
        rw [← ha']
        rw [← hr1]
      · have hi0 : i = 0 := by
          rcases Nat.lt_or_ge i 1 with hlt | hge
          · omega
          · exact absurd ⟨hge, h2⟩ hbreak
        subst hi0
        obtain ⟨r, hr, hr1⟩ := hex
        rcases List.mem_append.mp hr with hrt | hrr
        · obtain ⟨a, _, ha⟩ := List.mem_map.mp hrt
          rw [← ha] at hr1
          simp at hr1
        · obtain ⟨hnone, hle⟩ := ih 1 _ ⟨r, hrr, hr1⟩ hne
          refine ⟨hnone, ?_⟩
          intro r' hr'
          rcases List.mem_append.mp hr' with hrt' | hrr'
          · obtain ⟨a, _, ha⟩ := List.mem_map.mp hrt'
            rw [← ha]
            exact Nat.zero_le 1
          · exact hle r' hrr'

/-- C5: with a retry budget of at least 2, candidates are attempted in
ascending rank order, and once the second candidate (index 1) has been
attempted without winning the `i >= 1 and self.retry_attempts >= 2` cutoff
fires: the item's result is Failure (None) and no candidate of index ≥ 2 is
ever attempted. -/
theorem C5_second_candidate_cutoff (env : ℕ → PageOutcome) (ra : ℕ)
    (cands : List Product) (h2 : 2 ≤ ra)
    (hatt : ∃ r ∈ itemRecs env ra cands, r.1 = 1)
    (hne : (processGo env ra cands 0 0).1 ≠ some 1) :
    ((itemRecs env ra cands).Pairwise fun a b : ℕ × AttemptRec => a.1 ≤ b.1) ∧
    (processGo env ra cands 0 0).1 = none ∧
    ∀ r ∈ itemRecs env ra cands, r.1 ≤ 1 := by
  unfold itemRecs at hatt ⊢
  obtain ⟨h1, h3⟩ := processGo_cutoff env ra h2 cands 0 0 hatt hne
  exact ⟨processGo_tags_sorted env ra cands 0 0, h1, h3⟩

theorem C5_second_candidate_cutoff_witness :
    (processGo envFail 2 [plainCand, plainCand, plainCand] 0 0).1 = none :=
  (C5_second_candidate_cutoff envFail 2 [plainCand, plainCand, plainCand]
    (by decide) ⟨(1, ⟨false, .notLoggedIn⟩), by decide, rfl⟩ (by decide)).2.1

/-- C6: the login check inspects page signals in priority order — visible
authenticated-user marker reports logged-in; otherwise a visible sign-in
marker reports not-logged-in; otherwise a detected block reports blocked;
and when none of the three signals is present it reports logged-in. -/
theorem C6_login_check_priority (p : PageState) :
    ((p.hiAccountTag || p.hiHeaderDiv) = true →
      is_account_logged_in p = (some true, some false)) ∧
    ((p.hiAccountTag || p.hiHeaderDiv) = false →
      (p.signInAccountTag || p.signInHeaderDiv) = true →
      is_account_logged_in p = (some false, some false)) ∧
    ((p.hiAccountTag || p.hiHeaderDiv) = false →
      (p.signInAccountTag || p.signInHeaderDiv) = false →
      is_request_blocked p = true →
      is_account_logged_in p = (some false, some true)) ∧
    ((p.hiAccountTag || p.hiHeaderDiv) = false →
      (p.signInAccountTag || p.signInHeaderDiv) = false →
      is_request_blocked p = false →
      is_account_logged_in p = (some true, none)) := by
  refine ⟨?_, ?_, ?_, ?_⟩
  · intro h1
    simp [is_account_logged_in, h1]
  · intro h1 h2
    simp [is_account_logged_in, h1, h2]
  · intro h1 h2 h3
    simp [is_account_logged_in, h1, h2, h3]
  · intro h1 h2 h3
    simp [is_account_logged_in, h1, h2, h3]

theorem C6_login_check_priority_witness :
    is_account_logged_in blockedPage = (some false, some true) :=
  (C6_login_check_priority blockedPage).2.2.1 rfl rfl (by decide)

/-- C7: a malformed min or max price is substituted with 0 and the row kept
(not dropped); min > max is swapped; so each loaded row carries exactly the
min and the max of the two substituted values, and every loaded item
satisfies min_price ≤ max_price. -/
theorem C7_input_normalization (rows : List Row) :
    (∀ it ∈ load_input_data rows, it.min_price ≤ it.max_price) ∧
    (∀ r : Row, r.itemName ≠ "" →
      loadRow r = some ⟨r.itemName, min (r.minCost.getD 0) (r.maxCost.getD 0),
        max (r.minCost.getD 0) (r.maxCost.getD 0)⟩) := by
  constructor
  · intro it hit
    obtain ⟨r, hr, hload⟩ := List.mem_filterMap.mp hit
    unfold loadRow at hload
    by_cases h1 : r.itemName = ""
    · rw [if_pos h1] at hload
      exact absurd hload (by simp)
    · rw [if_neg h1] at hload
      dsimp only at hload
      by_cases h2 : r.minCost.getD 0 > r.maxCost.getD 0
      · rw [if_pos h2, Option.some_inj] at hload
        rw [← hload]
        exact le_of_lt h2
      · rw [if_neg h2, Option.some_inj] at hload
        rw [← hload]
        exact not_lt.mp h2
  · intro r hne
    unfold loadRow
    rw [if_neg hne]
    by_cases h2 : r.minCost.getD 0 > r.maxCost.getD 0
    · rw [if_pos h2, min_eq_right (le_of_lt h2), max_eq_left (le_of_lt h2)]
    · rw [if_neg h2, min_eq_left (not_lt.mp h2), max_eq_right (not_lt.mp h2)]

theorem C7_input_normalization_witness :
    (⟨"pen", -100, 0⟩ : InputItem).min_price ≤
      (⟨"pen", -100, 0⟩ : InputItem).max_price ∧
    loadRow badRow = some ⟨"pen", min 0 (-100), max 0 (-100)⟩ :=
  ⟨(C7_input_normalization [badRow]).1 ⟨"pen", -100, 0⟩ (by decide),
   (C7_input_normalization [badRow]).2 badRow (by decide)⟩

theorem dictLookup_insert_self {V : Type} (d : List (String × V))
    (k : String) (v : V) : dictLookup (dictInsert d k v) k = some v := by
  induction d with
  | nil =>
    unfold dictInsert dictLookup
    rw [List.find?_cons_of_pos _ (by simp)]
    rfl
  | cons kv d ih =>
    by_cases h : kv.1 = k
    · unfold dictInsert
      rw [if_pos h]
      unfold dictLookup
      rw [List.find?_cons_of_pos _ (by simp)]
      rfl
    · unfold dictInsert
      rw [if_neg h]
      unfold dictLookup
      rw [List.find?_cons_of_neg _ (by simp [h])]
      exact ih

theorem dictLookup_insert_other {V : Type} (d : List (String × V))
    (k k' : String) (v : V) (hk : k' ≠ k) :
    dictLookup (dictInsert d k v) k' = dictLookup d k' := by
  induction d with
  | nil =>
    unfold dictInsert dictLookup
    rw [List.find?_cons_of_neg _ (by simp [Ne.symm hk])]
  | cons kv d ih =>
    by_cases h : kv.1 = k
    · unfold dictInsert
      rw [if_pos h]
      unfold dictLookup
      rw [List.find?_cons_of_neg _ (by simp [Ne.symm hk]),
        List.find?_cons_of_neg _ (by simp [h, Ne.symm hk])]
    · unfold dictInsert
      rw [if_neg h]
      by_cases hkv : kv.1 = k'
      · unfold dictLookup
        rw [List.find?_cons_of_pos _ (by simp [hkv]),
          List.find?_cons_of_pos _ (by simp [hkv])]
      · unfold dictLookup
        rw [List.find?_cons_of_neg _ (by simp [hkv]),
          List.find?_cons_of_neg _ (by simp [hkv])]
        exact ih

theorem dictUpdate_single {V : Type} (d : List (String × V)) (k : String)
    (v : V) : dictUpdate d [(k, v)] = dictInsert d k v :=
  rfl

/-- C8: saving an outcome record for key k is a merge, not a replace — after
the write the store yields the new record at k, every other key retains its
prior value, and a missing or malformed store file is read as the empty
mapping (the load step is a total function, not an error). -/
theorem C8_store_merge {V : Type} (file : StoreFile V) (k k' : String)
    (v : V) (hk : k' ≠ k) :
    dictLookup (save_product_data file [(k, v)]) k = some v ∧
    dictLookup (save_product_data file [(k, v)]) k' =
      dictLookup (loadStore file) k' ∧
    loadStore (StoreFile.missing : StoreFile V) = [] ∧
    loadStore (StoreFile.malformed : StoreFile V) = [] := by
  refine ⟨?_, ?_, rfl, rfl⟩
  · unfold save_product_data
    rw [dictUpdate_single]
    exact dictLookup_insert_self _ k v
  · unfold save_product_data
    rw [dictUpdate_single]
    exact dictLookup_insert_other _ k k' v hk

theorem C8_store_merge_witness :
    dictLookup (save_product_data (StoreFile.valid [("a", 1), ("b", 2)])
      [("b", (9 : ℕ))]) "b" = some 9 ∧
    dictLookup (save_product_data (StoreFile.valid [("a", 1), ("b", 2)])
      [("b", (9 : ℕ))]) "a" =
      dictLookup (loadStore (StoreFile.valid [("a", 1), ("b", 2)])) "a" :=
  ⟨(C8_store_merge (StoreFile.valid [("a", 1), ("b", 2)]) "b" "a" 9
      (by decide)).1,
   (C8_store_merge (StoreFile.valid [("a", 1), ("b", 2)]) "b" "a" 9
      (by decide)).2.1⟩

theorem requestLoop_spec (env : ℕ → FetchOutcome) (fuel : ℕ) :
    ∀ t0 : ℕ,
      (∀ b, requestLoop env fuel t0 = some b →
        ∃ t, t0 ≤ t ∧ t < t0 + fuel ∧ env t = .response 200 b ∧
          2000 < b.length) ∧
      ((∀ t, t0 ≤ t → t < t0 + fuel → fetchOk (env t) = false) →
        requestLoop env fuel t0 = none) := by
  induction fuel with
  | zero =>
    intro t0
    constructor
    · intro b hb
      simp [requestLoop] at hb
    · intro _
      rfl
  | succ n ih =>
    intro t0
    constructor
    · intro b hb
      unfold requestLoop at hb
      cases henv : env t0 with
      | response s body =>
        rw [henv] at hb
        dsimp only at hb
        by_cases hok : s = 200 ∧ 2000 < body.length
        · rw [if_pos hok, Option.some_inj] at hb
          refine ⟨t0, le_refl t0, by omega, ?_, ?_⟩
          · rw [henv, hok.1, hb]
          · rw [← hb]
            exact hok.2
        · rw [if_neg hok] at hb
          obtain ⟨t, ht1, ht2, ht3, ht4⟩ := (ih (t0 + 1)).1 b hb
          exact ⟨t, by omega, by omega, ht3, ht4⟩
      | transportError =>
        rw [henv] at hb
        dsimp only at hb
        obtain ⟨t, ht1, ht2, ht3, ht4⟩ := (ih (t0 + 1)).1 b hb
        exact ⟨t, by omega, by omega, ht3, ht4⟩
      | unexpectedError =>
        rw [henv] at hb
        dsimp only at hb
        obtain ⟨t, ht1, ht2, ht3, ht4⟩ := (ih (t0 + 1)).1 b hb
        exact ⟨t, by omega, by omega, ht3, ht4⟩
    · intro hall
      unfold requestLoop
      have hrec := (ih (t0 + 1)).2 (fun t h1 h2 => hall t (by omega) (by omega))
      cases henv : env t0 with
      | response s body =>
        have h0 := hall t0 (le_refl t0) (by omega)
        rw [henv] at h0
        unfold fetchOk at h0
        dsimp only at h0
        dsimp only
        rw [if_neg ?_]
        · exact hrec
        · intro hok
          rw [hok.1] at h0
          simp [hok.2] at h0
      | transportError => exact hrec
      | unexpectedError => exact hrec

/-- C9: the fetcher returns page content only when one of its two attempts
observed an HTTP 200 response with body length above 2000, and when every
attempt fails the plausibility test it returns None — it is a total function
of the attempt outcomes, so exhausted retries never raise. -/
theorem C9_fetcher_retries (env : ℕ → FetchOutcome) :
    (∀ b, request_html env = some b →
      ∃ t, t < 2 ∧ env t = .response 200 b ∧ 2000 < b.length) ∧
    ((∀ t, t < 2 → fetchOk (env t) = false) → request_html env = none) := by
  constructor
  · intro b hb
    obtain ⟨t, h1, h2, h3, h4⟩ := (requestLoop_spec env 2 0).1 b hb
    exact ⟨t, by omega, h3, h4⟩
  · intro hall
    exact (requestLoop_spec env 2 0).2 (fun t _ h2 => hall t (by omega))

theorem C9_fetcher_retries_witness : request_html envFetchFail = none :=
  (C9_fetcher_retries envFetchFail).2 (fun _ _ => rfl)
